import Mathlib

/-!
Verification of the dat-dns name resolver (src/index.js).

The development is a shallow embedding of the resolver: the name
normalisation step (Node's url.parse followed by version-suffix
stripping and the hash-shape test), the two record parsers
(parseDnsOverHttpsRecord, parseWellknownDatRecord), the DNS-over-HTTPS
fetch wrapper (fetchDnsOverHttpsRecord) and the resolution orchestrator
(resolveName).  Network responses are supplied through an explicit
World value; the in-memory cache is explicit state.  The default
matching patterns (DAT_HASH_REGEX, DAT_TXT_REGEX, DAT_PROTOCOL_REGEX)
are modelled; custom patterns passed through createDatDNS options are
out of scope of the claims.
-/

namespace DatDns

/-- The character class [0-9a-f] under the /i flag: an ASCII hex digit of
either case. -/
def isHexCI (c : Char) : Bool :=
  decide (('0' ≤ c ∧ c ≤ '9') ∨ ('a' ≤ c ∧ c ≤ 'f') ∨ ('A' ≤ c ∧ c ≤ 'F'))

/-- The character class [0-9]. -/
def isDigitChar (c : Char) : Bool :=
  decide ('0' ≤ c ∧ c ≤ '9')

/-- DAT_HASH_REGEX = /^[0-9a-f]{64}?$/i (src/index.js line 10).
The quantifier 64 followed by a question mark is the lazy form of the
exact-count quantifier: its minimum and maximum are both 64, so the
regex still accepts exactly the strings of 64 hex characters (the
laziness flag changes nothing for an exact count).  In particular the
empty string is NOT accepted. -/
def datHashTest (s : String) : Bool :=
  (s.data.length == 64) && s.data.all isHexCI

/-- VERSION_REGEX = /(\+[^\/]+)$/ applied through String.prototype.replace
with the empty replacement (src/index.js lines 14 and 78): the regex
matches at the leftmost position holding a plus sign that is followed by
at least one character and no slash up to the end of the string, and the
matched suffix is deleted. -/
def stripVersionAux : List Char → List Char
  | [] => []
  | c :: rest =>
    if c == '+' && !rest.isEmpty && rest.all (fun d => d != '/') then []
    else c :: stripVersionAux rest

/-- String wrapper for stripVersionAux. -/
def stripVersion (s : String) : String :=
  ⟨stripVersionAux s.data⟩

/-- Characters admitted by Node's protocolPattern /^([a-z0-9.+-]+:)/i
(letters of either case, digits, dot, plus, minus). -/
def isProtoChar (c : Char) : Bool :=
  decide (('a' ≤ c ∧ c ≤ 'z') ∨ ('A' ≤ c ∧ c ≤ 'Z') ∨ ('0' ≤ c ∧ c ≤ '9') ∨
    c = '.' ∨ c = '+' ∨ c = '-')

/-- Modelled from the spec: the normalisation uses Node's url.parse, a
platform library outside this repository.  This definition reproduces
the part of it the resolver reads, nameParsed.hostname and
nameParsed.pathname combined by hostname-or-pathname (src/index.js
lines 74-75): a leading run of protocol characters followed by a colon
is the scheme; when the scheme is followed by two slashes the authority
runs to the first slash, question mark or hash, loses a trailing
user-info part and a trailing colon-digits port, and is lowercased to
give the hostname; otherwise the remainder up to a question mark or
hash is the pathname.  An empty hostname and an empty pathname are
null, and hostname-or-pathname of two nulls is modelled as none.
Punycode/validation of exotic hostnames is elided; no claim depends on
it. -/
def urlParse (raw : String) : Option String :=
  let cs := raw.data
  let protoRun := cs.takeWhile isProtoChar
  let afterRun := cs.drop protoRun.length
  let hasProto := !protoRun.isEmpty && afterRun.head? == some ':'
  let rest := if hasProto then afterRun.drop 1 else cs
  if hasProto && rest.take 2 == ['/', '/'] then
    let afterSlashes := rest.drop 2
    let authority := afterSlashes.takeWhile (fun c => !(c == '/' || c == '?' || c == '#'))
    let pathPart := afterSlashes.drop authority.length
    let hostport := (authority.reverse.takeWhile (fun c => c != '@')).reverse
    let revDigits := hostport.reverse.takeWhile isDigitChar
    let afterPort := hostport.reverse.drop revDigits.length
    let hostRaw := if afterPort.head? == some ':' then (afterPort.drop 1).reverse else hostport
    let hostname := hostRaw.map Char.toLower
    if !hostname.isEmpty then some ⟨hostname⟩
    else
      let pathname := pathPart.takeWhile (fun c => !(c == '?' || c == '#'))
      if pathname.isEmpty then none else some ⟨pathname⟩
  else
    let pathname := rest.takeWhile (fun c => !(c == '?' || c == '#'))
    if pathname.isEmpty then none else some ⟨pathname⟩

/-- The full normalisation pipeline of resolveName (src/index.js lines
74-78): url.parse, hostname-or-pathname, version strip. -/
def normalizeName (raw : String) : Option String :=
  (urlParse raw).map stripVersion

/-- DEFAULT_DAT_DNS_TTL (src/index.js line 15). -/
def DEFAULT_DAT_DNS_TTL : Int := 3600

/-- MAX_DAT_DNS_TTL (src/index.js line 16). -/
def MAX_DAT_DNS_TTL : Int := 3600 * 24 * 7

/-- Number.isSafeInteger applied to a value that is either an integral
number (some n) or undefined / not an integral number (none): true
exactly for integers of magnitude at most 2 to the 53 minus one. -/
def isSafeIntegerOpt : Option Int → Bool
  | none => false
  | some n => decide (n.natAbs ≤ 9007199254740991)

/-- The two TTL adjustment steps shared verbatim by both record parsers
(src/index.js lines 274-279 and 338-343): replace an unsafe or negative
TTL by DEFAULT_DAT_DNS_TTL, then clamp to MAX_DAT_DNS_TTL. -/
def clampTTL (raw : Option Int) : Int :=
  let t1 : Int :=
    if isSafeIntegerOpt raw = false ∨ raw.getD 0 < 0 then DEFAULT_DAT_DNS_TTL
    else raw.getD 0
  if t1 > MAX_DAT_DNS_TTL then MAX_DAT_DNS_TTL else t1

/-- Case-insensitive character comparison (the /i regex flag on ASCII). -/
def eqCI (a b : Char) : Bool :=
  a.toLower == b.toLower

/-- Consume a literal case-insensitively; return the remaining input on
success. -/
def matchLit : List Char → List Char → Option (List Char)
  | [], s => some s
  | _ :: _, [] => none
  | l :: ls, c :: cs => if eqCI l c then matchLit ls cs else none

/-- Take exactly 64 hex characters from the front of the input. -/
def grab64Hex (s : List Char) : Option (List Char) :=
  let k := s.take 64
  if k.length == 64 && k.all isHexCI then some k else none

/-- One anchored attempt of DAT_TXT_REGEX = /"?datkey=([0-9a-f]{64})"?/i
(src/index.js line 13) at the head of the input.  The optional leading
quote is consumed greedily; when the input starts with a quote the
backtracking alternative (empty quote) can never succeed because the
literal d cannot match the quote, so only the quoted attempt matters.
The trailing optional quote constrains nothing.  The returned value is
the capture group: the 64 hex characters with their original case. -/
def txtMatchAt (s : List Char) : Option (List Char) :=
  match s with
  | '"' :: rest => (matchLit "datkey=".data rest).bind grab64Hex
  | _ => (matchLit "datkey=".data s).bind grab64Hex

/-- Leftmost search for DAT_TXT_REGEX (RegExp.prototype.exec without
anchors scans positions left to right). -/
def txtScan : List Char → Option (List Char)
  | [] => none
  | c :: cs =>
    match txtMatchAt (c :: cs) with
    | some k => some k
    | none => txtScan cs

/-- dnsTxtRegex.exec(data) followed by taking capture group 1, for the
default DAT_TXT_REGEX. -/
def txtExec (s : String) : Option String :=
  (txtScan s.data).map fun l => ⟨l⟩

/-- DAT_PROTOCOL_REGEX = /^dat:\/\/([0-9a-f]{64})/i (src/index.js line
11) applied through exec and capture group 1: the anchored literal
followed by exactly 64 hex characters; trailing input is unconstrained. -/
def protoExec (s : String) : Option String :=
  ((matchLit "dat://".data s.data).bind grab64Hex).map fun l => ⟨l⟩

/-- Numeric value of a digit string. -/
def digitsVal (l : List Char) : Nat :=
  l.foldl (fun acc c => acc * 10 + (c.toNat - 48)) 0

/-- The TTL line regex /^ttl=(\d+)$/i of parseWellknownDatRecord
(src/index.js line 328) with the unary plus applied to the capture. -/
def ttlLineExec (s : String) : Option Nat :=
  (matchLit "ttl=".data s.data).bind fun rest =>
    if !rest.isEmpty && rest.all isDigitChar then some (digitsVal rest) else none

deriving instance DecidableEq for Except

/-- Errors raised inside resolveName's try block and by the helper
functions (the message strings of src/index.js collapsed to tags). -/
inductive RErr
  /-- new Error with text DNS record not found -/
  | notFound
  /-- doh parse: invalid record, must provide json -/
  | invalidJson
  /-- doh parse: invalid record, no answers given -/
  | noAnswersGiven
  /-- doh parse: invalid record, no TXT answer given -/
  | noTxtAnswer
  /-- well-known parse: record must conform to the protocol regex -/
  | invalidWellknownRecord
  /-- fetchDnsOverHttpsRecord: Domain is not a FQDN -/
  | notFqdn
  /-- TypeError from reading property ttl of undefined (res never assigned) -/
  | ttlOfUndefined
  /-- TypeError from calling replace on null (url.parse produced neither
  hostname nor pathname); thrown before the try block -/
  | nullName
deriving DecidableEq, Repr

/-- One element of the JSON Answer array as the filter of
parseDnsOverHttpsRecord discriminates it (src/index.js lines 245-258). -/
inductive JsonAnswer
  /-- an element that is not a truthy object -/
  | nonObject
  /-- an object; data is some s exactly when the data member is a string,
  TTL is some n exactly when the TTL member is an integral number n
  (undefined, missing and non-integral numbers all behave alike under
  Number.isSafeInteger and are collapsed to none) -/
  | obj (data : Option String) (TTL : Option Int)
deriving DecidableEq, Repr

/-- The response body of a DNS-over-HTTPS request as
parseDnsOverHttpsRecord discriminates it (src/index.js lines 219-244). -/
inductive DohBody
  /-- a body that JSON.parse rejects (including the empty body produced
  by a transport error) -/
  | badJson
  /-- valid JSON whose Answer member is absent or not an array -/
  | noAnswerArray
  /-- valid JSON with an Answer array -/
  | answers (l : List JsonAnswer)
deriving DecidableEq, Repr

/-- A filtered answer: the captured key (a.key = match[1]) and the raw
record TTL. -/
structure DohCandidate where
  key : String
  TTL : Option Int
deriving DecidableEq, Repr

/-- The filter body of parseDnsOverHttpsRecord (src/index.js lines
245-258): drop non-objects and non-string data, keep the capture of the
TXT regex as the key. -/
def answerCandidate : JsonAnswer → Option DohCandidate
  | .nonObject => none
  | .obj none _ => none
  | .obj (some d) t => (txtExec d).map fun k => ⟨k, t⟩

/-- answers.filter(...) of src/index.js lines 245-258 with the captured
keys attached. -/
def dohCandidates (l : List JsonAnswer) : List DohCandidate :=
  l.filterMap answerCandidate

/-- The comparator of src/index.js line 261 as a relation: a sorts
before b when the key of a is at least the key of b (descending key
order; JS compares strings by code units, which on these strings agrees
with the Lean String order). -/
def keyGE (a b : DohCandidate) : Prop :=
  b.key ≤ a.key

instance : DecidableRel keyGE :=
  fun a b => inferInstanceAs (Decidable (b.key ≤ a.key))

instance : IsTotal DohCandidate keyGE :=
  ⟨fun a b => (le_total b.key a.key).elim Or.inl Or.inr⟩

instance : IsTrans DohCandidate keyGE :=
  ⟨fun _ _ _ h1 h2 => le_trans h2 h1⟩

/-- The .sort call of src/index.js line 261: some permutation of the
candidate list that is descending in the key.  Array.prototype.sort
with a consistent comparator produces such a permutation; insertion
sort realises one.  Every property proved about the chosen element
depends only on its key, which is the same for every descending
permutation. -/
def sortCandidatesDesc (l : List DohCandidate) : List DohCandidate :=
  List.insertionSort keyGE l

/-- The pair assembled by both parsers. -/
structure ParsedRecord where
  key : String
  ttl : Int
deriving DecidableEq, Repr

/-- parseDnsOverHttpsRecord (src/index.js lines 219-281) for the default
DAT_TXT_REGEX, over the discriminated body.  The statusCode of the
response is never inspected by the source, so it does not appear. -/
def parseDnsOverHttpsRecord (body : DohBody) : Except RErr ParsedRecord :=
  match body with
  | .badJson => .error .invalidJson
  | .noAnswerArray => .error .noAnswersGiven
  | .answers l =>
    match sortCandidatesDesc (dohCandidates l) with
    | [] => .error .noTxtAnswer
    | best :: _ => .ok { key := best.key, ttl := clampTTL best.TTL }

/-- body.split with the newline separator (JS String.prototype.split
for a one-character separator: split at every newline, keeping empty
pieces).  The accumulator holds the current piece reversed. -/
def splitLinesAux : List Char → List Char → List String
  | [], acc => [⟨acc.reverse⟩]
  | c :: cs, acc =>
    if c == '\n' then ⟨acc.reverse⟩ :: splitLinesAux cs []
    else splitLinesAux cs (c :: acc)

/-- String wrapper for splitLinesAux. -/
def splitLines (s : String) : List String :=
  splitLinesAux s.data []

/-- JS String.prototype.toLowerCase on ASCII content. -/
def toLowerStr (s : String) : String :=
  ⟨s.data.map Char.toLower⟩

/-- The TTL-line step of parseWellknownDatRecord (src/index.js lines
326-337): the second line, when present and nonempty, is matched
against the TTL regex; a second line that does not match raises inside
the inner try and is swallowed, leaving the TTL undefined (none). -/
def wkRawTtl (lines : List String) : Option Int :=
  match lines.drop 1 with
  | [] => none
  | l1 :: _ => if l1.isEmpty then none else (ttlLineExec l1).map Int.ofNat

/-- parseWellknownDatRecord (src/index.js lines 299-346) for the default
DAT_PROTOCOL_REGEX and record name.  The body is always a string from
the stream; the falsy check rejects exactly the empty string. -/
def parseWellknownDatRecord (body : String) : Except RErr ParsedRecord :=
  if body.data.isEmpty then .error .notFound
  else
    match protoExec ((splitLines body).headD "") with
    | none => .error .invalidWellknownRecord
    | some k => .ok { key := k, ttl := clampTTL (wkRawTtl (splitLines body)) }

/-- The response of the well-known HTTPS GET: statusCode 0 stands for a
transport error (src/index.js lines 283-297). -/
structure WkResponse where
  statusCode : Int
  body : String
deriving DecidableEq, Repr

/-- The collaborator responses for one resolveName call: the body the
DNS-over-HTTPS provider would return and the well-known response the
target host would return. -/
structure World where
  dohBody : DohBody
  wk : WkResponse
deriving DecidableEq, Repr

/-- The settled promise of fetchDnsOverHttpsRecord together with whether
the HTTPS request was issued. -/
structure FetchDohOut where
  outcome : Except RErr DohBody
  networkCalled : Bool
deriving DecidableEq, Repr

/-- fetchDnsOverHttpsRecord (src/index.js lines 182-217).  When the name
holds no dot the promise is rejected with the not-a-FQDN error; the
reject call does not return, however, so execution falls through to the
https.get call, which is issued unconditionally (its response is
ignored because the promise is already settled).  The trailing-dot
append only affects the query string and is immaterial here. -/
def fetchDnsOverHttpsRecord (name : String) (w : World) : FetchDohOut :=
  let rejected := !(name.data.contains '.')
  { outcome := if rejected then .error .notFqdn else .ok w.dohBody
    networkCalled := true }

/-- A value stored in the in-memory cache. -/
inductive CVal
  /-- a positive entry: a resolved key -/
  | key (k : String)
  /-- a negative entry: the literal false cached on a well-known miss -/
  | miss
  /-- the undefined value written by the degenerate path where the DoH
  probe failed and the well-known probe was skipped -/
  | undef
deriving DecidableEq, Repr

/-- A cache entry: the stored value and the ttl argument it was stored
with (none models an undefined ttl argument). -/
structure CacheEntry where
  value : CVal
  ttl : Option Int
deriving DecidableEq, Repr

/-- The in-memory cache state, keyed by the normalized name. -/
abbrev Cache := List (String × CacheEntry)

/-- Modelled from the spec: the memory-cache module (required as
./cache, not under src) per spec section 4.2: get returns the live
entry's value or Unknown (none); expiry is abstracted away (all entries
treated as live), which no claim depends on. -/
def mGet (c : Cache) (n : String) : Option CVal :=
  (c.find? (fun e => e.1 == n)).map fun e => e.2.value

/-- Modelled from the spec: set stores the value under the name,
overwriting any previous entry for that name (spec section 3,
lifecycle). -/
def mSet (c : Cache) (n : String) (v : CVal) (ttl : Option Int) : Cache :=
  (n, ⟨v, ttl⟩) :: c.filter (fun e => e.1 != n)

/-- The state of the res variable of resolveName at the cache/return
step (src/index.js lines 98-151). -/
inductive ResVal
  /-- var res was never assigned (both probes skipped) -/
  | undef
  /-- res = false: a DoH failure was swallowed and the well-known probe
  was skipped -/
  | fls
  /-- a parsed record -/
  | record (key : String) (ttl : Int)
deriving DecidableEq, Repr

/-- JS truthiness of the res variable. -/
def resTruthy : ResVal → Bool
  | .record _ _ => true
  | _ => false

/-- An emitted diagnostic event (method, name, detail). -/
inductive Ev
  | resolved (method name key : String)
  | failed (method name err : String)
deriving DecidableEq, Repr

/-- The outcome of the try block of resolveName: the value returned or
the error thrown, the cache state after the call, which probes ran and
whether DoH succeeded, the events emitted, and the arguments of the
persistent-cache write if one was reached (the wrapper keeps them only
when a persistent cache is configured).  A result of ok none models the
degenerate return of the undefined value. -/
structure CoreOut where
  result : Except RErr (Option String)
  cache : Cache
  dohInvoked : Bool
  dohSucceeded : Bool
  wkInvoked : Bool
  events : List Ev
  pWrites : List (String × Option String × Option Int)
deriving DecidableEq, Repr

/-- The cache/return step, src/index.js lines 150-154: reading ttl on
undefined throws a TypeError; reading ttl on the boolean false yields
undefined, which differs from 0, so a garbage entry is stored and
undefined is returned; on a record the positive entry is written unless
the ttl is 0, and the persistent write is reached in every non-throwing
case. -/
def cacheStage (name : String) (c0 : Cache) (res : ResVal) :
    Except RErr (Option String) × Cache × List (String × Option String × Option Int) :=
  match res with
  | .undef => (.error .ttlOfUndefined, c0, [])
  | .fls => (.ok none, mSet c0 name .undef none, [(name, none, none)])
  | .record k t =>
    (.ok (some k),
     if t = 0 then c0 else mSet c0 name (.key k) (some t),
     [(name, some k, some t)])

/-- The result of the DoH section of resolveName. -/
structure DohStageOut where
  res : ResVal
  invoked : Bool
  ok : Bool
  events : List Ev
deriving DecidableEq, Repr

/-- The DoH section of resolveName (src/index.js lines 99-116): fetch,
parse, emit; any thrown error is swallowed and res becomes false. -/
def dohStage (name : String) (w : World) : DohStageOut :=
  match (fetchDnsOverHttpsRecord name w).outcome with
  | .error _ => ⟨.fls, true, false, [.failed "dns-over-https" name "Name is not a FQDN"]⟩
  | .ok body =>
    match parseDnsOverHttpsRecord body with
    | .error _ => ⟨.fls, true, false, [.failed "dns-over-https" name "bad record"]⟩
    | .ok r => ⟨.record r.key r.ttl, true, true, [.resolved "dns-over-https" name r.key]⟩

/-- The per-call option flags (src/index.js lines 68-71). -/
structure ResolveOpts where
  ignoreCache : Bool
  ignoreCachedMiss : Bool
  noDnsOverHttps : Bool
  noWellknownDat : Bool
deriving DecidableEq, Repr

/-- All flags false: resolveName called without options. -/
def defaultOpts : ResolveOpts :=
  ⟨false, false, false, false⟩

/-- The probe pipeline of resolveName after the DoH section
(src/index.js lines 118-154), parametrised by the DoH section's
outcome d: the well-known section when res is falsy and not skipped,
then the cache/return step. -/
def resolveProbesWith (name : String) (opts : ResolveOpts) (w : World) (c0 : Cache)
    (d : DohStageOut) : CoreOut :=
  if resTruthy d.res = false ∧ opts.noWellknownDat = false then
    if w.wk.statusCode = 0 ∨ w.wk.statusCode = 404 then
      { result := .error .notFound
        cache := mSet c0 name .miss (some 60)
        dohInvoked := d.invoked, dohSucceeded := d.ok, wkInvoked := true
        events := d.events ++ [.failed "well-known" name "HTTP code 0 or 404"]
        pWrites := [] }
    else if w.wk.statusCode ≠ 200 then
      { result := .error .notFound
        cache := c0
        dohInvoked := d.invoked, dohSucceeded := d.ok, wkInvoked := true
        events := d.events ++ [.failed "well-known" name "HTTP code"]
        pWrites := [] }
    else
      match parseWellknownDatRecord w.wk.body with
      | .error e =>
        { result := .error e
          cache := c0
          dohInvoked := d.invoked, dohSucceeded := d.ok, wkInvoked := true
          events := d.events ++ [.failed "well-known" name "bad record"]
          pWrites := [] }
      | .ok r =>
        let st := cacheStage name c0 (.record r.key r.ttl)
        { result := st.1
          cache := st.2.1
          dohInvoked := d.invoked, dohSucceeded := d.ok, wkInvoked := true
          events := d.events ++ [.resolved "well-known" name r.key]
          pWrites := st.2.2 }
  else
    let st := cacheStage name c0 d.res
    { result := st.1
      cache := st.2.1
      dohInvoked := d.invoked, dohSucceeded := d.ok, wkInvoked := false
      events := d.events
      pWrites := st.2.2 }

/-- The probe pipeline of resolveName after the cache check
(src/index.js lines 98-154): the DoH section unless skipped (a skipped
section leaves res undefined and no flag set), then the rest of the
pipeline. -/
def resolveProbes (name : String) (opts : ResolveOpts) (w : World) (c0 : Cache) : CoreOut :=
  resolveProbesWith name opts w c0
    (if opts.noDnsOverHttps then ⟨.undef, false, false, []⟩ else dohStage name w)

/-- Whether the cache check (src/index.js lines 87-96) short-circuits
the call: a positive hit answers it, a negative hit answers it unless
cached misses are ignored; a stored undefined fails the typeof guard
and falls through like an absent entry. -/
def cacheAnswers (c : Cache) (n : String) (opts : ResolveOpts) : Bool :=
  if opts.ignoreCache then false
  else
    match mGet c n with
    | some (.key _) => true
    | some .miss => !opts.ignoreCachedMiss
    | _ => false

/-- The try block of resolveName (src/index.js lines 85-154): cache
check, then the probe pipeline. -/
def resolveCore (name : String) (opts : ResolveOpts) (w : World) (c0 : Cache) : CoreOut :=
  let cachedKey : Option CVal := if opts.ignoreCache then none else mGet c0 name
  match cachedKey with
  | some (.key k) =>
    { result := .ok (some k), cache := c0, dohInvoked := false, dohSucceeded := false
      wkInvoked := false, events := [], pWrites := [] }
  | some .miss =>
    if opts.ignoreCachedMiss then resolveProbes name opts w c0
    else
      { result := .error .notFound, cache := c0, dohInvoked := false, dohSucceeded := false
        wkInvoked := false, events := [], pWrites := [] }
  | _ => resolveProbes name opts w c0

/-- The read capability of the persistent cache: a return value or a
thrown error. -/
def PCacheRead :=
  String → RErr → Except RErr String

/-- The observable outcome of one resolveName call. -/
structure ResolveOut where
  result : Except RErr (Option String)
  cache : Cache
  dohInvoked : Bool
  dohSucceeded : Bool
  wkInvoked : Bool
  events : List Ev
  pWrites : List (String × Option String × Option Int)
  pReads : List (String × RErr)

/-- The catch clause of resolveName (src/index.js lines 155-161): on a
thrown error a configured persistent cache is read and its outcome
becomes the call's outcome; otherwise the error propagates.  The
persistent write arguments are kept only when a persistent cache is
configured (the if pCache guard of line 152). -/
def applyPCache (name : String) (pc : Option PCacheRead) (core : CoreOut) : ResolveOut :=
  { result :=
      match core.result with
      | .ok v => .ok v
      | .error e =>
        match pc with
        | none => .error e
        | some rd => (rd name e).map some
    cache := core.cache
    dohInvoked := core.dohInvoked
    dohSucceeded := core.dohSucceeded
    wkInvoked := core.wkInvoked
    events := core.events
    pWrites := if pc.isSome then core.pWrites else []
    pReads :=
      match core.result, pc with
      | .error e, some _ => [(name, e)]
      | _, _ => [] }

/-- resolveName (src/index.js lines 63-163): normalise, fast path for
key-shaped names, then the try block with the persistent-cache catch.
When url.parse yields neither hostname nor pathname the replace call on
null throws before the try block, so the persistent cache is not
consulted. -/
def resolveName (raw : String) (opts : ResolveOpts) (w : World) (pc : Option PCacheRead)
    (c0 : Cache) : ResolveOut :=
  match urlParse raw with
  | none =>
    { result := .error .nullName, cache := c0, dohInvoked := false, dohSucceeded := false
      wkInvoked := false, events := [], pWrites := [], pReads := [] }
  | some n0 =>
    let name := stripVersion n0
    if datHashTest name then
      { result := .ok (some ⟨name.data.take 64⟩), cache := c0, dohInvoked := false
        dohSucceeded := false, wkInvoked := false, events := [], pWrites := [], pReads := [] }
    else applyPCache name pc (resolveCore name opts w c0)

/-- The TTL mapping as the specification words it, first applicable
case winning: not a safe integer or negative gives the default, above
the maximum gives the maximum, anything else is kept.  This definition
follows the spec text and is compared with clampTTL, which follows the
source. -/
def ttlSpecClamp (raw : Option Int) : Int :=
  match raw with
  | none => 3600
  | some t =>
    if ¬ (t.natAbs ≤ 9007199254740991) ∨ t < 0 then 3600
    else if t > 604800 then 604800 else t

/-- A 64-character key of lowercase a characters. -/
def keyLowerA : String := ⟨List.replicate 64 'a'⟩

/-- A 64-character key of uppercase F characters. -/
def keyUpperF : String := ⟨List.replicate 64 'F'⟩

/-- A 64-character key of lowercase f characters. -/
def keyLowerF : String := ⟨List.replicate 64 'f'⟩

/-- A 64-character key of lowercase b characters. -/
def keyLowerB : String := ⟨List.replicate 64 'b'⟩

/-- A world where the DoH body is unparseable and the well-known fetch
suffers a transport error. -/
def worldEmpty : World := ⟨.badJson, ⟨0, ""⟩⟩

/-- A world whose DoH answer array carries one valid TXT record. -/
def worldDoh (k : String) (t : Option Int) : World :=
  ⟨.answers [.obj (some ("datkey=" ++ k)) t], ⟨0, ""⟩⟩

/-- A world where DoH fails and the well-known host answers with the
given status and body. -/
def worldWk (status : Int) (body : String) : World :=
  ⟨.badJson, ⟨status, body⟩⟩

/-- A persistent-cache read that returns a fixed key for one name and
rethrows the original error for every other name. -/
def pcReadOnly (n k : String) : PCacheRead :=
  fun m e => if m = n then .ok k else .error e

theorem take64_of_datHashTest {s : String} (h : datHashTest s = true) :
    (⟨s.data.take 64⟩ : String) = s := by
  have hlen : s.data.length = 64 := by
    simp only [datHashTest, Bool.and_eq_true, beq_iff_eq] at h
    exact h.1
  obtain ⟨d⟩ := s
  simp only at hlen
  simp [List.take_of_length_le (le_of_eq hlen)]

theorem applyPCache_cache (n : String) (pc : Option PCacheRead) (core : CoreOut) :
    (applyPCache n pc core).cache = core.cache := rfl

theorem applyPCache_dohInvoked (n : String) (pc : Option PCacheRead) (core : CoreOut) :
    (applyPCache n pc core).dohInvoked = core.dohInvoked := rfl

theorem applyPCache_dohSucceeded (n : String) (pc : Option PCacheRead) (core : CoreOut) :
    (applyPCache n pc core).dohSucceeded = core.dohSucceeded := rfl

theorem applyPCache_wkInvoked (n : String) (pc : Option PCacheRead) (core : CoreOut) :
    (applyPCache n pc core).wkInvoked = core.wkInvoked := rfl

theorem hexCI_props {c : Char} (h : isHexCI c = true) :
    isProtoChar c = true ∧ c ≠ '+' ∧ c ≠ '?' ∧ c ≠ '#' := by
  simp only [isHexCI] at h
  have hp := of_decide_eq_true h
  refine ⟨?_, ?_, ?_, ?_⟩
  · simp only [isProtoChar]
    apply decide_eq_true
    rcases hp with ⟨h1, h2⟩ | ⟨h1, h2⟩ | ⟨h1, h2⟩
    · exact Or.inr (Or.inr (Or.inl ⟨h1, h2⟩))
    · exact Or.inl ⟨h1, le_trans h2 (by decide)⟩
    · exact Or.inr (Or.inl ⟨h1, le_trans h2 (by decide)⟩)
  · intro he
    subst he
    exact absurd hp (by decide)
  · intro he
    subst he
    exact absurd hp (by decide)
  · intro he
    subst he
    exact absurd hp (by decide)

theorem stripVersionAux_no_plus :
    ∀ l : List Char, (∀ c ∈ l, c ≠ '+') → stripVersionAux l = l := by
  intro l h
  induction l with
  | nil => rfl
  | cons c rest ih =>
    rw [stripVersionAux]
    have hc : (c == '+') = false := by
      simp only [beq_eq_false_iff_ne, ne_eq]
      exact h c (List.mem_cons_self _ _)
    simp [hc, ih fun d hd => h d (List.mem_cons_of_mem _ hd)]

theorem urlParse_all_hex {s : String} (hne : s.data ≠ [])
    (hall : ∀ c ∈ s.data, isHexCI c = true) : urlParse s = some s := by
  have hproto : s.data.takeWhile isProtoChar = s.data :=
    List.takeWhile_eq_self_iff.mpr fun c hc => (hexCI_props (hall c hc)).1
  have hpath : s.data.takeWhile (fun c => !(c == '?' || c == '#')) = s.data := by
    apply List.takeWhile_eq_self_iff.mpr
    intro c hc
    have h2 := hexCI_props (hall c hc)
    simp [h2.2.2.1, h2.2.2.2]
  simp only [urlParse]
  rw [hproto, List.drop_length, List.head?_nil]
  rw [show ((none : Option Char) == some ':') = false from rfl, Bool.and_false]
  rw [Bool.false_and]
  simp only [if_neg Bool.false_eq_true_eq_False]
  rw [hpath]
  cases hd : s.data.isEmpty with
  | true => exact absurd (List.isEmpty_iff.mp hd) hne
  | false =>
    simp only [if_neg Bool.false_eq_true_eq_False]

/-- C4: for every input whose normalized form (url.parse
hostname-or-pathname followed by version stripping) matches the 64-hex
key shape, resolveName returns the bare 64-character key immediately:
no probe runs, the memory cache is untouched (and never read, as the
fast path returns before the cache check), no event is emitted and the
persistent cache is neither read nor written. -/
theorem resolveName_hash_fast_path (raw : String) (opts : ResolveOpts) (w : World)
    (pc : Option PCacheRead) (c0 : Cache) (n0 : String)
    (hu : urlParse raw = some n0) (hh : datHashTest (stripVersion n0) = true) :
    (resolveName raw opts w pc c0).result = .ok (some (stripVersion n0)) ∧
    (resolveName raw opts w pc c0).cache = c0 ∧
    (resolveName raw opts w pc c0).dohInvoked = false ∧
    (resolveName raw opts w pc c0).wkInvoked = false ∧
    (resolveName raw opts w pc c0).events = [] ∧
    (resolveName raw opts w pc c0).pWrites = [] ∧
    (resolveName raw opts w pc c0).pReads = [] := by
  simp only [resolveName]
  rw [hu]
  simp only [hh, if_true, take64_of_datHashTest hh]
  simp

/-- Witness for C4 at a concrete bare key. -/
theorem resolveName_hash_fast_path_witness :
    urlParse keyLowerA = some keyLowerA ∧
    datHashTest (stripVersion keyLowerA) = true ∧
    (resolveName keyLowerA defaultOpts worldEmpty none []).result =
      .ok (some (stripVersion keyLowerA)) ∧
    (resolveName keyLowerA defaultOpts worldEmpty none []).events = [] :=
  ⟨by decide, by decide,
   (resolveName_hash_fast_path keyLowerA defaultOpts worldEmpty none [] keyLowerA
     (by decide) (by decide)).1,
   (resolveName_hash_fast_path keyLowerA defaultOpts worldEmpty none [] keyLowerA
     (by decide) (by decide)).2.2.2.2.1⟩

/-- C6: for every probe result the attached TTL obeys the claimed
mapping, first applicable case winning: a raw TTL that is not a safe
integer or is negative becomes DEFAULT 3600; a raw TTL above MAX 604800
becomes exactly 604800; any other raw TTL is kept.  The source's
two-step adjustment (clampTTL, shared by both parsers) equals the
spec-worded mapping (ttlSpecClamp), and both parsers attach clampTTL of
their raw TTL to every record they return. -/
theorem ttl_clamp_policy :
    (∀ raw : Option Int, clampTTL raw = ttlSpecClamp raw) ∧
    (∀ body r, parseDnsOverHttpsRecord body = .ok r → ∃ rawT, r.ttl = clampTTL rawT) ∧
    (∀ body r, parseWellknownDatRecord body = .ok r → ∃ rawT, r.ttl = clampTTL rawT) := by
  refine ⟨?_, ?_, ?_⟩
  · intro raw
    cases raw with
    | none => decide
    | some t =>
      simp only [clampTTL, ttlSpecClamp, isSafeIntegerOpt, Option.getD_some,
        DEFAULT_DAT_DNS_TTL, MAX_DAT_DNS_TTL, decide_eq_false_iff_not]
      norm_num
      split_ifs <;> omega
  · intro body r h
    cases body with
    | badJson => simp [parseDnsOverHttpsRecord] at h
    | noAnswerArray => simp [parseDnsOverHttpsRecord] at h
    | answers l =>
      rcases hs : sortCandidatesDesc (dohCandidates l) with _ | ⟨best, rest⟩ <;>
        rw [parseDnsOverHttpsRecord, hs] at h
      · exact absurd h (by simp)
      · refine ⟨best.TTL, ?_⟩
        cases h
        rfl
  · intro body r h
    rw [parseWellknownDatRecord] at h
    by_cases he : body.data.isEmpty
    · rw [if_pos he] at h
      exact absurd h (by simp)
    · rw [if_neg he] at h
      rcases hp : protoExec ((splitLines body).headD "") with _ | k <;> rw [hp] at h
      · exact absurd h (by simp)
      · refine ⟨wkRawTtl (splitLines body), ?_⟩
        cases h
        rfl

/-- Witness for C6: the clamp at an overlarge raw TTL and at a negative
raw TTL, and a concrete well-known parse carrying its raw TTL through
clampTTL. -/
theorem ttl_clamp_policy_witness :
    clampTTL (some 100000000) = ttlSpecClamp (some 100000000) ∧
    ttlSpecClamp (some 100000000) = 604800 ∧
    clampTTL (some (-7)) = ttlSpecClamp (some (-7)) ∧
    ttlSpecClamp (some (-7)) = 3600 ∧
    (∃ rawT, (30 : Int) = clampTTL rawT) :=
  ⟨ttl_clamp_policy.1 (some 100000000), by decide,
   ttl_clamp_policy.1 (some (-7)), by decide,
   (ttl_clamp_policy.2.2 ("dat://" ++ keyLowerF ++ "\nttl=30") ⟨keyLowerF, 30⟩ (by decide)).imp
     (fun rawT hr => hr)⟩

/-- C7 counterexample: the claim states that for a dotless name no
network call is made, but execution continues past the reject call, so
the HTTPS request is issued anyway: at the concrete name localhost the
probe both rejects with the not-a-FQDN error and fires the network
call. -/
theorem fetchDoh_network_despite_reject :
    (fetchDnsOverHttpsRecord "localhost" worldEmpty).outcome = .error .notFqdn ∧
    (fetchDnsOverHttpsRecord "localhost" worldEmpty).networkCalled = true :=
  ⟨by decide, by decide⟩

/-- C7 as amended: for every name containing no dot the DoH probe fails
immediately with the not-a-FQDN error, but the HTTPS request is
nevertheless still issued, because the early reject does not return. -/
theorem fetchDoh_not_fqdn (name : String) (w : World) (h : name.data.contains '.' = false) :
    (fetchDnsOverHttpsRecord name w).outcome = .error .notFqdn ∧
    (fetchDnsOverHttpsRecord name w).networkCalled = true := by
  unfold fetchDnsOverHttpsRecord
  simp [h]
  simpa using h

/-- Witness for the amended C7 at a concrete dotless name. -/
theorem fetchDoh_not_fqdn_witness :
    ("nodots".data.contains '.' = false) ∧
    (fetchDnsOverHttpsRecord "nodots" (worldDoh keyLowerF (some 60))).outcome =
      .error .notFqdn :=
  ⟨by decide, (fetchDoh_not_fqdn "nodots" (worldDoh keyLowerF (some 60)) (by decide)).1⟩

/-- C8 counterexample: an input that is a bare 64-hex key written in
uppercase is returned by the fast path in uppercase, not lowercase (the
slice call of the source does not change case and a scheme-less input
never passes through hostname lowercasing). -/
theorem resolveName_uppercase_stays_uppercase :
    (resolveName keyUpperF defaultOpts worldEmpty none []).result = .ok (some keyUpperF) ∧
    toLowerStr keyUpperF ≠ keyUpperF := by
  refine ⟨by decide, by decide⟩

/-- C8 as amended: for every input that is itself a bare 64-hex key (of
either case) the fast path returns that key exactly as matched,
preserving its case; lowercasing happens only as a side effect of URL
hostname parsing for scheme-carrying inputs, not on the fast path. -/
theorem resolveName_bare_key_as_matched (s : String) (opts : ResolveOpts) (w : World)
    (pc : Option PCacheRead) (c0 : Cache) (hh : datHashTest s = true) :
    (resolveName s opts w pc c0).result = .ok (some s) := by
  have hall : ∀ c ∈ s.data, isHexCI c = true := by
    simp only [datHashTest, Bool.and_eq_true, List.all_eq_true] at hh
    exact fun c hc => hh.2 c hc
  have hne : s.data ≠ [] := by
    simp only [datHashTest, Bool.and_eq_true, beq_iff_eq] at hh
    intro h0
    rw [h0] at hh
    simp at hh
  have hu : urlParse s = some s := urlParse_all_hex hne hall
  have hsv : stripVersion s = s := by
    have : stripVersionAux s.data = s.data :=
      stripVersionAux_no_plus s.data fun c hc => (hexCI_props (hall c hc)).2.1
    rw [stripVersion, this]
  simp only [resolveName]
  rw [hu]
  simp only [hsv, hh, if_true]
  rw [take64_of_datHashTest hh]

/-- Witness for the amended C8 at a concrete mixed-behaviour input: an
uppercase key flows through unchanged. -/
theorem resolveName_bare_key_as_matched_witness :
    datHashTest keyUpperF = true ∧
    (resolveName keyUpperF defaultOpts (worldDoh keyLowerF (some 5)) none []).result =
      .ok (some keyUpperF) :=
  ⟨by decide,
   resolveName_bare_key_as_matched keyUpperF defaultOpts (worldDoh keyLowerF (some 5)) none []
     (by decide)⟩

theorem sortDesc_head_spec {cl : List DohCandidate} {best : DohCandidate}
    {rest : List DohCandidate} (h : sortCandidatesDesc cl = best :: rest) :
    best ∈ cl ∧ ∀ c ∈ cl, c.key ≤ best.key := by
  have hp := List.perm_insertionSort keyGE cl
  rw [sortCandidatesDesc] at h
  rw [h] at hp
  constructor
  · exact hp.mem_iff.mp (List.mem_cons_self _ _)
  · intro c hc
    rcases List.mem_cons.mp (hp.mem_iff.mpr hc) with he | hc3
    · rw [he]
    · have hs := List.sorted_insertionSort keyGE cl
      rw [h] at hs
      exact List.rel_of_sorted_cons hs c hc3

theorem parse_answers_spec {l : List JsonAnswer} (h : dohCandidates l ≠ []) :
    ∃ r, parseDnsOverHttpsRecord (DohBody.answers l) = .ok r ∧
      r.key ∈ (dohCandidates l).map DohCandidate.key ∧
      ∀ k ∈ (dohCandidates l).map DohCandidate.key, k ≤ r.key := by
  rcases hs : sortCandidatesDesc (dohCandidates l) with _ | ⟨best, rest⟩
  · exfalso
    have hp := List.perm_insertionSort keyGE (dohCandidates l)
    rw [sortCandidatesDesc] at hs
    rw [hs] at hp
    exact h hp.symm.eq_nil
  · have hspec := sortDesc_head_spec hs
    refine ⟨⟨best.key, clampTTL best.TTL⟩, ?_, ?_, ?_⟩
    · rw [parseDnsOverHttpsRecord, hs]
    · exact List.mem_map_of_mem DohCandidate.key hspec.1
    · intro k hk
      rcases List.mem_map.mp hk with ⟨c, hc, hck⟩
      rw [← hck]
      exact hspec.2 c hc

/-- C3: whenever the Answer array holds at least one valid candidate,
parseDnsOverHttpsRecord succeeds and returns the lexicographically
greatest candidate key (descending sort, first element), and the chosen
key is invariant under any permutation of the answer list. -/
theorem parseDnsOverHttpsRecord_greatest_key (l : List JsonAnswer)
    (h : dohCandidates l ≠ []) :
    ∃ r, parseDnsOverHttpsRecord (DohBody.answers l) = .ok r ∧
      r.key ∈ (dohCandidates l).map DohCandidate.key ∧
      (∀ k ∈ (dohCandidates l).map DohCandidate.key, k ≤ r.key) ∧
      (∀ l2, List.Perm l l2 →
        ∃ r2, parseDnsOverHttpsRecord (DohBody.answers l2) = .ok r2 ∧ r2.key = r.key) := by
  rcases parse_answers_spec h with ⟨r, hr, hmem, hmax⟩
  refine ⟨r, hr, hmem, hmax, ?_⟩
  intro l2 hperm
  have hpc : List.Perm (dohCandidates l) (dohCandidates l2) := hperm.filterMap answerCandidate
  have hc2 : dohCandidates l2 ≠ [] := by
    intro h0
    rw [h0] at hpc
    exact h hpc.eq_nil
  rcases parse_answers_spec hc2 with ⟨r2, hr2, hmem2, hmax2⟩
  have hmap : List.Perm ((dohCandidates l).map DohCandidate.key) ((dohCandidates l2).map DohCandidate.key) :=
    hpc.map DohCandidate.key
  exact ⟨r2, hr2, le_antisymm (hmax r2.key (hmap.mem_iff.mpr hmem2))
    (hmax2 r.key (hmap.mem_iff.mp hmem))⟩

/-- A concrete answer carrying the all-a key. -/
def ansA : JsonAnswer := .obj (some ("datkey=" ++ keyLowerA)) (some 60)

/-- A concrete answer carrying the all-b key. -/
def ansB : JsonAnswer := .obj (some ("datkey=" ++ keyLowerB)) (some 30)

/-- Witness for C3 at a concrete three-element answer list. -/
theorem parseDnsOverHttpsRecord_greatest_key_witness :
    dohCandidates [ansA, ansB, JsonAnswer.nonObject] ≠ [] ∧
    (∃ r, parseDnsOverHttpsRecord (DohBody.answers [ansA, ansB, JsonAnswer.nonObject]) = .ok r ∧
      r.key ∈ (dohCandidates [ansA, ansB, JsonAnswer.nonObject]).map DohCandidate.key ∧
      (∀ k ∈ (dohCandidates [ansA, ansB, JsonAnswer.nonObject]).map DohCandidate.key, k ≤ r.key) ∧
      (∀ l2, List.Perm [ansA, ansB, JsonAnswer.nonObject] l2 →
        ∃ r2, parseDnsOverHttpsRecord (DohBody.answers l2) = .ok r2 ∧ r2.key = r.key)) :=
  ⟨by decide, parseDnsOverHttpsRecord_greatest_key [ansA, ansB, JsonAnswer.nonObject] (by decide)⟩

theorem dohStage_invoked (name : String) (w : World) : (dohStage name w).invoked = true := by
  cases h : (fetchDnsOverHttpsRecord name w).outcome with
  | error e => simp [dohStage, h]
  | ok body => cases h2 : parseDnsOverHttpsRecord body <;> simp [dohStage, h, h2]

theorem dohStage_shape (name : String) (w : World) :
    ((dohStage name w).ok = true ∧ ∃ k t, (dohStage name w).res = .record k t) ∨
    ((dohStage name w).ok = false ∧ (dohStage name w).res = .fls) := by
  cases h : (fetchDnsOverHttpsRecord name w).outcome with
  | error e => right; simp [dohStage, h]
  | ok body =>
    cases h2 : parseDnsOverHttpsRecord body with
    | error e => right; simp [dohStage, h, h2]
    | ok r => left; exact ⟨by simp [dohStage, h, h2], r.key, r.ttl, by simp [dohStage, h, h2]⟩

theorem dohStage_of_parse_ok {name : String} {w : World} {k : String} {t : Int}
    (hdot : name.data.contains '.' = true)
    (hp : parseDnsOverHttpsRecord w.dohBody = .ok ⟨k, t⟩) :
    dohStage name w = ⟨.record k t, true, true, [.resolved "dns-over-https" name k]⟩ := by
  have hdot2 : '.' ∈ name.data := by simpa using hdot
  unfold dohStage fetchDnsOverHttpsRecord
  simp [hdot2, hp]

theorem resolveCore_no_cache_answer {name : String} {opts : ResolveOpts} {c0 : Cache}
    (h : cacheAnswers c0 name opts = false) (w : World) :
    resolveCore name opts w c0 = resolveProbes name opts w c0 := by
  unfold resolveCore
  unfold cacheAnswers at h
  cases hic : opts.ignoreCache with
  | true => simp [hic]
  | false =>
    rw [hic] at h
    simp only [if_neg Bool.false_eq_true_eq_False] at h ⊢
    cases hg : mGet c0 name with
    | none => simp
    | some v =>
      rw [hg] at h
      cases v with
      | key k => simp at h
      | miss =>
        have hm : opts.ignoreCachedMiss = true := by
          cases hq : opts.ignoreCachedMiss
          · rw [hq] at h; cases h
          · rfl
        simp [hm]
      | undef => simp

theorem resolveCore_cache_answer {name : String} {opts : ResolveOpts} {c0 : Cache}
    (h : cacheAnswers c0 name opts = true) (w : World) :
    (resolveCore name opts w c0).dohInvoked = false ∧
    (resolveCore name opts w c0).dohSucceeded = false ∧
    (resolveCore name opts w c0).wkInvoked = false ∧
    (resolveCore name opts w c0).cache = c0 := by
  unfold resolveCore
  unfold cacheAnswers at h
  cases hic : opts.ignoreCache with
  | true => rw [hic] at h; simp at h
  | false =>
    rw [hic] at h
    simp only [if_neg Bool.false_eq_true_eq_False] at h ⊢
    cases hg : mGet c0 name with
    | none => rw [hg] at h; simp at h
    | some v =>
      rw [hg] at h
      cases v with
      | key k => simp
      | miss =>
        have hm : opts.ignoreCachedMiss = false := by
          cases hq : opts.ignoreCachedMiss
          · rfl
          · rw [hq] at h; cases h
        simp [hm]
      | undef => simp at h

theorem probesWith_truthy {n : String} {o : ResolveOpts} {w : World} {c : Cache}
    {d : DohStageOut} {k : String} {t : Int} (hres : d.res = .record k t) :
    (resolveProbesWith n o w c d).wkInvoked = false ∧
    (resolveProbesWith n o w c d).dohInvoked = d.invoked ∧
    (resolveProbesWith n o w c d).dohSucceeded = d.ok ∧
    (resolveProbesWith n o w c d).result = .ok (some k) ∧
    (resolveProbesWith n o w c d).cache =
      (if t = 0 then c else mSet c n (.key k) (some t)) := by
  unfold resolveProbesWith
  rw [hres]
  simp [resTruthy, cacheStage]

theorem probesWith_wk {n : String} {o : ResolveOpts} {w : World} {c : Cache}
    {d : DohStageOut} (h1 : resTruthy d.res = false) (h2 : o.noWellknownDat = false) :
    (resolveProbesWith n o w c d).wkInvoked = true ∧
    (resolveProbesWith n o w c d).dohInvoked = d.invoked ∧
    (resolveProbesWith n o w c d).dohSucceeded = d.ok ∧
    ((w.wk.statusCode = 0 ∨ w.wk.statusCode = 404) →
      (resolveProbesWith n o w c d).cache = mSet c n .miss (some 60) ∧
      (resolveProbesWith n o w c d).result = .error .notFound) ∧
    (w.wk.statusCode ≠ 0 → w.wk.statusCode ≠ 404 → w.wk.statusCode ≠ 200 →
      (resolveProbesWith n o w c d).cache = c ∧
      (resolveProbesWith n o w c d).result = .error .notFound) := by
  unfold resolveProbesWith
  rw [h1, h2, if_pos (⟨rfl, rfl⟩ : (false = false ∧ false = false))]
  by_cases hs0 : w.wk.statusCode = 0 ∨ w.wk.statusCode = 404
  · rw [if_pos hs0]
    refine ⟨rfl, rfl, rfl, fun _ => ⟨rfl, rfl⟩, ?_⟩
    intro hne0 hne404 _
    rcases hs0 with h | h
    · exact absurd h hne0
    · exact absurd h hne404
  · rw [if_neg hs0]
    by_cases hs200 : w.wk.statusCode = 200
    · have hnn : ¬ (w.wk.statusCode ≠ 200) := by simp [hs200]
      rw [if_neg hnn]
      cases hp : parseWellknownDatRecord w.wk.body with
      | error e =>
        exact ⟨rfl, rfl, rfl, fun h0 => absurd h0 hs0, fun _ _ h200 => absurd hs200 h200⟩
      | ok r =>
        exact ⟨rfl, rfl, rfl, fun h0 => absurd h0 hs0, fun _ _ h200 => absurd hs200 h200⟩
    · rw [if_pos hs200]
      exact ⟨rfl, rfl, rfl, fun h0 => absurd h0 hs0, fun _ _ _ => ⟨rfl, rfl⟩⟩

theorem probesWith_skip_wk {n : String} {o : ResolveOpts} {w : World} {c : Cache}
    {d : DohStageOut} (h : resTruthy d.res = true ∨ o.noWellknownDat = true) :
    (resolveProbesWith n o w c d).wkInvoked = false ∧
    (resolveProbesWith n o w c d).dohInvoked = d.invoked ∧
    (resolveProbesWith n o w c d).dohSucceeded = d.ok := by
  have hcond : ¬ (resTruthy d.res = false ∧ o.noWellknownDat = false) := by
    intro hcon
    rcases h with h | h
    · rw [hcon.1] at h; cases h
    · rw [hcon.2] at h; cases h
  unfold resolveProbesWith
  rw [if_neg hcond]
  exact ⟨rfl, rfl, rfl⟩

/-- C1: with both probes enabled, a successful DoH probe fully
short-circuits the well-known probe; a DoH probe that was attempted and
failed (threw or yielded no valid candidate) is always followed by the
well-known probe; and the well-known probe runs only after the DoH
probe was attempted (DoH first, well-known second). -/
theorem resolveName_doh_before_wellknown (raw : String) (opts : ResolveOpts) (w : World)
    (pc : Option PCacheRead) (c0 : Cache)
    (h1 : opts.noDnsOverHttps = false) (h2 : opts.noWellknownDat = false) :
    ((resolveName raw opts w pc c0).dohSucceeded = true →
      (resolveName raw opts w pc c0).wkInvoked = false) ∧
    ((resolveName raw opts w pc c0).dohInvoked = true ∧
      (resolveName raw opts w pc c0).dohSucceeded = false →
      (resolveName raw opts w pc c0).wkInvoked = true) ∧
    ((resolveName raw opts w pc c0).wkInvoked = true →
      (resolveName raw opts w pc c0).dohInvoked = true) := by
  unfold resolveName
  cases hu : urlParse raw with
  | none => simp
  | some n0 =>
    by_cases hh : datHashTest (stripVersion n0) = true
    · simp [hh]
    · have hh2 : datHashTest (stripVersion n0) = false := by
        cases hq : datHashTest (stripVersion n0)
        · rfl
        · exact absurd hq hh
      simp only [hh2, if_neg Bool.false_eq_true_eq_False]
      rw [applyPCache_dohInvoked, applyPCache_dohSucceeded, applyPCache_wkInvoked]
      by_cases hca : cacheAnswers c0 (stripVersion n0) opts = true
      · rcases resolveCore_cache_answer hca w with ⟨hdi, hds, hwi, _⟩
        rw [hdi, hds, hwi]
        simp
      · rw [resolveCore_no_cache_answer (by revert hca; cases cacheAnswers c0 (stripVersion n0) opts <;> simp) w]
        rw [resolveProbes, if_neg (by rw [h1]; exact Bool.false_ne_true)]
        rcases dohStage_shape (stripVersion n0) w with ⟨hok, k, t, hres⟩ | ⟨hok, hres⟩
        · rcases probesWith_truthy hres with ⟨hwi, hdi, hds, _, _⟩
          rw [hwi, hdi, hds, hok, dohStage_invoked]
          simp
        · rcases probesWith_wk (by rw [hres]; rfl) h2 with ⟨hwi, hdi, hds, _, _⟩
          rw [hwi, hdi, hds, hok, dohStage_invoked]
          simp

/-- Witness for C1 at a concrete failing-DoH world: the well-known
probe is invoked after the DoH failure and only after DoH was
attempted. -/
theorem resolveName_doh_before_wellknown_witness :
    defaultOpts.noDnsOverHttps = false ∧
    ((resolveName "nokey.test" defaultOpts worldEmpty none []).dohInvoked = true ∧
      (resolveName "nokey.test" defaultOpts worldEmpty none []).dohSucceeded = false →
      (resolveName "nokey.test" defaultOpts worldEmpty none []).wkInvoked = true) :=
  ⟨rfl,
   (resolveName_doh_before_wellknown "nokey.test" defaultOpts worldEmpty none [] rfl rfl).2.1⟩

theorem applyPCache_result_none (n : String) (core : CoreOut) :
    (applyPCache n none core).result = core.result := by
  cases hr : core.result with
  | ok v => simp [applyPCache, hr]
  | error e => simp [applyPCache, hr]

theorem applyPCache_result_of_ok {n : String} {pc : Option PCacheRead} {core : CoreOut}
    {v : Option String} (h : core.result = .ok v) :
    (applyPCache n pc core).result = .ok v := by
  simp [applyPCache, h]

theorem applyPCache_some_error {n : String} {rd : PCacheRead} {core : CoreOut} {e : RErr}
    (h : core.result = .error e) :
    (applyPCache n (some rd) core).result = (rd n e).map some ∧
    (applyPCache n (some rd) core).pReads = [(n, e)] := by
  constructor <;> simp [applyPCache, h]

theorem applyPCache_some_ok {n : String} {rd : PCacheRead} {core : CoreOut} {v : Option String}
    (h : core.result = .ok v) :
    (applyPCache n (some rd) core).result = .ok v ∧
    (applyPCache n (some rd) core).pReads = [] := by
  constructor <;> simp [applyPCache, h]

theorem applyPCache_pReads_ne {n : String} {pc : Option PCacheRead} {core : CoreOut}
    (h : (applyPCache n pc core).pReads ≠ []) : ∃ e, core.result = .error e := by
  cases hr : core.result with
  | ok v => exact absurd (by simp [applyPCache, hr]) h
  | error e => exact ⟨e, rfl⟩

theorem probesWith_dohInvoked (name : String) (opts : ResolveOpts) (w : World) (c0 : Cache)
    (d : DohStageOut) :
    (resolveProbesWith name opts w c0 d).dohInvoked = d.invoked := by
  unfold resolveProbesWith
  split
  · split
    · rfl
    · split
      · rfl
      · split <;> rfl
  · rfl

/-- C5: whenever the well-known probe runs and reports status 0 or 404,
the orchestrator writes a negative cache entry for the normalized name
with a TTL of exactly 60 seconds and the call fails with the
DNS-record-not-found error (stated for no configured persistent cache,
which would otherwise absorb the error per the catch clause); for any
other non-200 status it fails the same way without writing any cache
entry. -/
theorem resolveName_wellknown_negative_cache (raw : String) (opts : ResolveOpts) (w : World)
    (pc : Option PCacheRead) (c0 : Cache) (n0 : String)
    (hu : urlParse raw = some n0)
    (hwk : (resolveName raw opts w pc c0).wkInvoked = true) :
    ((w.wk.statusCode = 0 ∨ w.wk.statusCode = 404) →
      (resolveName raw opts w pc c0).cache = mSet c0 (stripVersion n0) .miss (some 60) ∧
      (pc = none → (resolveName raw opts w pc c0).result = .error .notFound)) ∧
    (w.wk.statusCode ≠ 0 → w.wk.statusCode ≠ 404 → w.wk.statusCode ≠ 200 →
      (resolveName raw opts w pc c0).cache = c0 ∧
      (pc = none → (resolveName raw opts w pc c0).result = .error .notFound)) := by
  unfold resolveName at hwk ⊢
  rw [hu] at hwk ⊢
  by_cases hh : datHashTest (stripVersion n0) = true
  · simp [hh] at hwk
  · have hh2 : datHashTest (stripVersion n0) = false := by
      cases hq : datHashTest (stripVersion n0)
      · rfl
      · exact absurd hq hh
    simp only [hh2, if_neg Bool.false_eq_true_eq_False] at hwk ⊢
    rw [applyPCache_wkInvoked] at hwk
    by_cases hca : cacheAnswers c0 (stripVersion n0) opts = true
    · rcases resolveCore_cache_answer hca w with ⟨_, _, hwi, _⟩
      rw [hwi] at hwk
      cases hwk
    · have hca2 : cacheAnswers c0 (stripVersion n0) opts = false := by
        cases hq : cacheAnswers c0 (stripVersion n0) opts
        · rfl
        · exact absurd hq hca
      rw [resolveCore_no_cache_answer hca2 w] at hwk ⊢
      rw [resolveProbes] at hwk ⊢
      by_cases hcond : resTruthy (if opts.noDnsOverHttps = true then
          (⟨.undef, false, false, []⟩ : DohStageOut) else
          dohStage (stripVersion n0) w).res = false ∧ opts.noWellknownDat = false
      · rcases probesWith_wk (n := stripVersion n0) (w := w) (c := c0)
          hcond.1 hcond.2 with ⟨_, _, _, h04, hother⟩
        constructor
        · intro hs
          rcases h04 hs with ⟨hc, hr⟩
          refine ⟨by rw [applyPCache_cache, hc], ?_⟩
          intro hpc
          rw [hpc, applyPCache_result_none, hr]
        · intro hs0 hs404 hs200
          rcases hother hs0 hs404 hs200 with ⟨hc, hr⟩
          refine ⟨by rw [applyPCache_cache, hc], ?_⟩
          intro hpc
          rw [hpc, applyPCache_result_none, hr]
      · have hdis : resTruthy (if opts.noDnsOverHttps = true then
            (⟨.undef, false, false, []⟩ : DohStageOut) else
            dohStage (stripVersion n0) w).res = true ∨ opts.noWellknownDat = true := by
          cases hr : resTruthy (if opts.noDnsOverHttps = true then
              (⟨.undef, false, false, []⟩ : DohStageOut) else
              dohStage (stripVersion n0) w).res
          · cases ho : opts.noWellknownDat
            · exact absurd ⟨hr, ho⟩ hcond
            · exact Or.inr rfl
          · exact Or.inl rfl
        rcases probesWith_skip_wk (n := stripVersion n0) (w := w) (c := c0) hdis with
          ⟨hwi, _, _⟩
        rw [hwi] at hwk
        cases hwk

/-- Witness for C5 at a concrete 404 world. -/
theorem resolveName_wellknown_negative_cache_witness :
    urlParse "nokey.test" = some "nokey.test" ∧
    (resolveName "nokey.test" defaultOpts (worldWk 404 "") none []).wkInvoked = true ∧
    ((404 : Int) = 0 ∨ (404 : Int) = 404) ∧
    (resolveName "nokey.test" defaultOpts (worldWk 404 "") none []).cache =
      mSet [] (stripVersion "nokey.test") .miss (some 60) :=
  ⟨by decide, by decide, Or.inr rfl,
   ((resolveName_wellknown_negative_cache "nokey.test" defaultOpts (worldWk 404 "") none []
     "nokey.test" (by decide) (by decide)).1 (Or.inr rfl)).1⟩

/-- C2: for every call that ends in failure inside the try block, a
configured persistent cache is read with the normalized name and the
original error, its outcome (return value or thrown error) becoming the
call's result, while without a persistent cache the original error
propagates unchanged (the two runs share the same core, so the no-cache
run's result is that original error); the read never happens on a
successful resolution, and when the memory cache did not answer the
call, a read implies that every non-skipped probe was attempted (DoH
exactly when enabled, well-known when enabled and DoH did not
succeed). -/
theorem resolveName_persistent_cache (raw : String) (opts : ResolveOpts) (w : World)
    (rd : PCacheRead) (c0 : Cache) (n0 : String) (hu : urlParse raw = some n0) :
    (∀ e, (resolveName raw opts w none c0).result = .error e →
      (resolveName raw opts w (some rd) c0).result = (rd (stripVersion n0) e).map some ∧
      (resolveName raw opts w (some rd) c0).pReads = [(stripVersion n0, e)]) ∧
    (∀ v, (resolveName raw opts w none c0).result = .ok v →
      (resolveName raw opts w (some rd) c0).result = .ok v ∧
      (resolveName raw opts w (some rd) c0).pReads = []) ∧
    ((resolveName raw opts w (some rd) c0).pReads ≠ [] →
      cacheAnswers c0 (stripVersion n0) opts = false →
      (resolveName raw opts w (some rd) c0).dohInvoked = !opts.noDnsOverHttps ∧
      (opts.noWellknownDat = false →
        (resolveName raw opts w (some rd) c0).wkInvoked = true)) := by
  unfold resolveName
  rw [hu]
  by_cases hh : datHashTest (stripVersion n0) = true
  · simp only [hh, if_true]
    refine ⟨?_, ?_, ?_⟩
    · intro e he
      exact absurd he (by simp)
    · intro v hv
      exact ⟨hv, trivial⟩
    · intro hne
      exact absurd rfl hne
  · have hh2 : datHashTest (stripVersion n0) = false := by
      cases hq : datHashTest (stripVersion n0)
      · rfl
      · exact absurd hq hh
    simp only [hh2, if_neg Bool.false_eq_true_eq_False]
    refine ⟨?_, ?_, ?_⟩
    · intro e he
      rw [applyPCache_result_none] at he
      exact applyPCache_some_error he
    · intro v hv
      rw [applyPCache_result_none] at hv
      exact applyPCache_some_ok hv
    · intro hne hca
      rcases applyPCache_pReads_ne hne with ⟨e, he⟩
      rw [resolveCore_no_cache_answer hca w] at he ⊢
      rw [resolveProbes] at he ⊢
      rw [applyPCache_dohInvoked, applyPCache_wkInvoked]
      rw [probesWith_dohInvoked]
      cases hnd : opts.noDnsOverHttps with
      | true =>
        simp only [if_pos rfl]
        refine ⟨rfl, ?_⟩
        intro hnwk
        exact (probesWith_wk (d := ⟨.undef, false, false, []⟩) rfl hnwk).1
      | false =>
        rw [hnd] at he
        simp only [if_neg Bool.false_eq_true_eq_False] at he ⊢
        refine ⟨by simp [dohStage_invoked], ?_⟩
        intro hnwk
        rcases dohStage_shape (stripVersion n0) w with ⟨hok, k, t, hres⟩ | ⟨hok, hres⟩
        · rcases probesWith_truthy (o := opts) (c := c0) hres with ⟨_, _, _, hr, _⟩
          rw [hr] at he
          cases he
        · exact (probesWith_wk (by rw [hres]; rfl) hnwk).1

/-- Witness for C2: both probes fail for a dotless unresolved name; the
configured read returns a fixed key for that name, and the call's
result is exactly that key with the read recorded. -/
theorem resolveName_persistent_cache_witness :
    (resolveName "nokey.test" defaultOpts worldEmpty none []).result = .error .notFound ∧
    (resolveName "nokey.test" defaultOpts worldEmpty
        (some (pcReadOnly "nokey.test" keyLowerF)) []).result =
      ((pcReadOnly "nokey.test" keyLowerF) (stripVersion "nokey.test") .notFound).map some ∧
    (resolveName "nokey.test" defaultOpts worldEmpty
        (some (pcReadOnly "nokey.test" keyLowerF)) []).pReads =
      [(stripVersion "nokey.test", RErr.notFound)] :=
  ⟨by decide,
   ((resolveName_persistent_cache "nokey.test" defaultOpts worldEmpty
     (pcReadOnly "nokey.test" keyLowerF) [] "nokey.test" (by decide)).1 .notFound (by decide)).1,
   ((resolveName_persistent_cache "nokey.test" defaultOpts worldEmpty
     (pcReadOnly "nokey.test" keyLowerF) [] "nokey.test" (by decide)).1 .notFound (by decide)).2⟩

/-- C9: a successful resolution whose record TTL is 0 leaves the memory
cache exactly as it was (the positive write is skipped and no existing
entry is touched) while the key is still returned: stated for the
shared cache/return step, which every probe success passes through, and
end to end for a DoH resolution whose parsed record carries TTL 0. -/
theorem resolveName_zero_ttl_no_cache_write :
    (∀ name c0 k, cacheStage name c0 (.record k 0) =
      (Except.ok (some k), c0, [(name, some k, (some (0 : Int)))])) ∧
    (∀ raw opts w pc c0 n0 k,
      urlParse raw = some n0 →
      datHashTest (stripVersion n0) = false →
      cacheAnswers c0 (stripVersion n0) opts = false →
      opts.noDnsOverHttps = false →
      (stripVersion n0).data.contains '.' = true →
      parseDnsOverHttpsRecord w.dohBody = .ok ⟨k, 0⟩ →
      (resolveName raw opts w pc c0).result = .ok (some k) ∧
      (resolveName raw opts w pc c0).cache = c0) := by
  constructor
  · intro name c0 k
    simp [cacheStage]
  · intro raw opts w pc c0 n0 k hu hh hca hnd hdot hp
    unfold resolveName
    rw [hu]
    simp only [hh, if_neg Bool.false_eq_true_eq_False]
    rw [resolveCore_no_cache_answer hca w]
    rw [resolveProbes]
    rw [hnd]
    simp only [if_neg Bool.false_eq_true_eq_False]
    have hds := dohStage_of_parse_ok hdot hp
    have hres : (dohStage (stripVersion n0) w).res = .record k 0 := by rw [hds]
    rcases probesWith_truthy (o := opts) (c := c0) hres with ⟨_, _, _, hr, hc⟩
    refine ⟨applyPCache_result_of_ok hr, ?_⟩
    rw [applyPCache_cache, hc]
    simp

/-- Witness for C9 at a concrete zero-TTL DoH record. -/
theorem resolveName_zero_ttl_no_cache_write_witness :
    parseDnsOverHttpsRecord (worldDoh keyLowerF (some 0)).dohBody = .ok ⟨keyLowerF, 0⟩ ∧
    (resolveName "zttl.test" defaultOpts (worldDoh keyLowerF (some 0)) none []).result =
      .ok (some keyLowerF) ∧
    (resolveName "zttl.test" defaultOpts (worldDoh keyLowerF (some 0)) none []).cache = [] :=
  ⟨by decide,
   (resolveName_zero_ttl_no_cache_write.2 "zttl.test" defaultOpts (worldDoh keyLowerF (some 0))
     none [] "zttl.test" keyLowerF (by decide) (by decide) (by decide) rfl (by decide)
     (by decide)).1,
   (resolveName_zero_ttl_no_cache_write.2 "zttl.test" defaultOpts (worldDoh keyLowerF (some 0))
     none [] "zttl.test" keyLowerF (by decide) (by decide) (by decide) rfl (by decide)
     (by decide)).2⟩

/-- C10 counterexample: resolveName applied to the input +5 does not
return the empty string: the normalized name (the empty string) fails
the default key-shape test, because the lazy quantifier of
DAT_HASH_REGEX still requires exactly 64 characters and the empty
string does not match; the call falls through to the probes (the
well-known probe is attempted) and fails, writing a negative cache
entry on the transport-error status. -/
theorem resolveName_plus5_counterexample :
    datHashTest "" = false ∧
    (resolveName "+5" defaultOpts worldEmpty none []).result = .error .notFound ∧
    (resolveName "+5" defaultOpts worldEmpty none []).wkInvoked = true ∧
    (resolveName "+5" defaultOpts worldEmpty none []).cache = [("", ⟨.miss, some 60⟩)] :=
  ⟨by decide, by decide, by decide, by decide⟩

/-- C10 as amended: the default key-shape pattern does not match the
empty string; for the input +5 the normalized name is the empty string,
which fails the key-shape test, so resolveName proceeds to the probe
pipeline (the DoH probe rejects the dotless empty name and the
well-known probe is attempted) and the call fails with the
DNS-record-not-found error instead of returning the empty string. -/
theorem resolveName_plus5_amended (w : World) (h0 : w.wk.statusCode = 0) :
    normalizeName "+5" = some "" ∧
    datHashTest "" = false ∧
    (resolveName "+5" defaultOpts w none []).wkInvoked = true ∧
    (resolveName "+5" defaultOpts w none []).result = .error .notFound := by
  refine ⟨by decide, by decide, ?_, ?_⟩ <;>
  · unfold resolveName
    rw [(by decide : urlParse "+5" = some "+5")]
    simp only [(by decide : stripVersion "+5" = ""), (by decide : datHashTest "" = false),
      if_neg Bool.false_eq_true_eq_False]
    rw [resolveCore_no_cache_answer (by decide) w]
    rw [resolveProbes]
    rw [if_neg (by decide : ¬ (defaultOpts.noDnsOverHttps = true))]
    have hds : dohStage "" w =
        ⟨.fls, true, false, [.failed "dns-over-https" "" "Name is not a FQDN"]⟩ := rfl
    have hres : resTruthy (dohStage "" w).res = false := by rw [hds]; rfl
    rcases probesWith_wk (o := defaultOpts) (c := []) hres rfl with ⟨hwi, _, _, h04, _⟩
    rcases h04 (Or.inl h0) with ⟨hc, hr⟩
    first
    | rw [applyPCache_wkInvoked, hwi]
    | rw [applyPCache_result_none, hr]

/-- Witness for the amended C10 at a concrete transport-error world. -/
theorem resolveName_plus5_amended_witness :
    (worldWk 0 "").wk.statusCode = 0 ∧
    (resolveName "+5" defaultOpts (worldWk 0 "") none []).result = .error .notFound :=
  ⟨rfl, (resolveName_plus5_amended (worldWk 0 "") rfl).2.2.2⟩

end DatDns
